import Mathlib

/-!
Verification of the Singularity CRI device plugin
(src/pkg/server/device/device.go) against its natural-language
specification.  The Go code is shallowly embedded: Go maps become
association lists with Go insertion semantics (assigning to a missing
key inserts it), channels become explicit event lists, collaborator
calls (nvml, the path resolver, the gRPC stream) become parameters
holding their outcomes, and a nil-pointer dereference panic becomes an
explicit outcome constructor.
-/

namespace SCRIDevice

/-- Health status strings used by the kubelet device-plugin API
(`k8sDP.Healthy` / `k8sDP.Unhealthy`). -/
inductive Health where
  | healthy
  | unhealthy
deriving DecidableEq, Repr

/-- The fields of `nvml.Device` that the plugin reads: the stable UUID
used as registry key and the host device-node path. -/
structure NvmlDevice where
  uuid : String
  path : String
deriving DecidableEq, Repr

/-- `k8sDP.Mount`. -/
structure Mount where
  containerPath : String
  hostPath : String
  readOnly : Bool
deriving DecidableEq, Repr

/-- `k8sDP.DeviceSpec`. -/
structure DeviceSpec where
  containerPath : String
  hostPath : String
  permissions : String
deriving DecidableEq, Repr

/-- `k8sDP.Device`: one entry of a ListAndWatch snapshot. -/
structure K8sDevice where
  id : String
  health : Health
deriving DecidableEq, Repr

/-- `k8sDP.ContainerAllocateResponse` (only the fields the plugin fills). -/
structure ContainerAllocateResponse where
  mounts : List Mount
  devices : List DeviceSpec
deriving DecidableEq, Repr

/-- `k8sDP.AllocateRequest`: each container request is its list of
requested device ids (`DevicesIDs`). -/
structure AllocateRequest where
  containerRequests : List (List String)
deriving DecidableEq, Repr

/-- `k8sDP.AllocateResponse`. -/
structure AllocateResponse where
  containerResponses : List ContainerAllocateResponse
deriving DecidableEq, Repr

/-- A Go map from strings, embedded as an association list.  Iteration
order of a Go map is unspecified; this embedding fixes one admissible
linearization (insertion order). -/
abbrev GoMap (α : Type) := List (String × α)

/-- Go map read `m[k]` in comma-ok form: `some v` when the key is
present, `none` when it is absent. -/
def lookupA {α : Type} : GoMap α → String → Option α
  | [], _ => none
  | (k1, v1) :: rest, k => if k1 = k then some v1 else lookupA rest k

/-- Go map write `m[k] = v`: updates the value in place when the key is
present and inserts a new entry otherwise. -/
def insertGo {α : Type} : GoMap α → String → α → GoMap α
  | [], k, v => [(k, v)]
  | (k1, v1) :: rest, k, v =>
      if k1 = k then (k1, v) :: rest else (k1, v1) :: insertGo rest k v

/-- The key set of a Go map (as the list of keys in order). -/
def keysOf {α : Type} (m : GoMap α) : List String := m.map Prod.fst

/-- `SingularityDevicePlugin`: the device registry (`devices`), the
health map (`hospital`), the configuration directory, and the `done`
shutdown channel (`true` once closed). -/
structure SingularityDevicePlugin where
  devices : GoMap NvmlDevice
  hospital : GoMap Health
  confDir : String
  done : Bool
deriving DecidableEq, Repr

/-- gRPC status codes the plugin uses (`codes.Internal`,
`codes.Unknown`). -/
inductive GrpcCode where
  | internal
  | unknown
deriving DecidableEq, Repr

/-- Outcome of one `Allocate` call: a response, an error status, or a
runtime panic (the nil-pointer dereference on `device.Path` when the
requested id is absent from `dp.devices`). -/
inductive AllocOutcome where
  | ok (resp : AllocateResponse)
  | err (code : GrpcCode) (msg : String)
  | panic
deriving DecidableEq, Repr

/-- The shared mount list built once per `Allocate` call: one read-only
mount per library path, then one per binary path, container path equal
to host path. -/
def buildMounts (nvLibs nvBins : List String) : List Mount :=
  nvLibs.map (fun p => { containerPath := p, hostPath := p, readOnly := true })
    ++ nvBins.map (fun p => { containerPath := p, hostPath := p, readOnly := true })

/-- The complementary device specs prepended to every container
response: permissions rw, container path equal to host path. -/
def compSpecs (nvDevs : List String) : List DeviceSpec :=
  nvDevs.map (fun d => { containerPath := d, hostPath := d, permissions := "rw" })

/-- The device spec built for one requested id: `dp.devices[devID]` is
read without a presence check, so a missing key yields `none`,
modelling the nil dereference of `device.Path`. -/
def specOf (devices : GoMap NvmlDevice) (id : String) : Option DeviceSpec :=
  (lookupA devices id).map
    (fun dev => { containerPath := dev.path, hostPath := dev.path, permissions := "rw" })

/-- A Go `for` loop that appends one element per iteration and panics
(returns `none`) at the first failing element. -/
def mapMO {α β : Type} : List α → (α → Option β) → Option (List β)
  | [], _ => some []
  | a :: as, f =>
      match f a with
      | none => none
      | some b =>
          match mapMO as f with
          | none => none
          | some bs => some (b :: bs)

/-- The device-spec list of one container request: the complementary
devices first, then one spec per requested id in request order. -/
def containerDevices (devices : GoMap NvmlDevice) (nvDevs : List String)
    (ids : List String) : Option (List DeviceSpec) :=
  (mapMO ids (specOf devices)).map (fun specs => compSpecs nvDevs ++ specs)

/-- `Allocate`.  `pathsRes` is the outcome of `nvidia.Paths(dp.confDir, "")`
and `devsRes` the outcome of `nvidia.Devices(false)`; both failures are
surfaced as `codes.Internal` errors.  Then one response per container
request is built, sharing one mount list. -/
def Allocate (dp : SingularityDevicePlugin)
    (pathsRes : Except String (List String × List String))
    (devsRes : Except String (List String))
    (req : AllocateRequest) : AllocOutcome :=
  match pathsRes with
  | Except.error e => AllocOutcome.err GrpcCode.internal
      ("could not search NVIDIA files: " ++ e)
  | Except.ok (nvLibs, nvBins) =>
    match devsRes with
    | Except.error e => AllocOutcome.err GrpcCode.internal
        ("could not search NVIDIA complementary devices: " ++ e)
    | Except.ok nvDevs =>
      let nvidiaMounts := buildMounts nvLibs nvBins
      match mapMO req.containerRequests (fun ids =>
          (containerDevices dp.devices nvDevs ids).map
            (fun ds => ContainerAllocateResponse.mk nvidiaMounts ds)) with
      | none => AllocOutcome.panic
      | some rs => AllocOutcome.ok (AllocateResponse.mk rs)

/-- `Allocate` with the receiver state threaded through: the method
body assigns to no field of `dp`, so the post-state is the pre-state. -/
def AllocateSt (dp : SingularityDevicePlugin)
    (pathsRes : Except String (List String × List String))
    (devsRes : Except String (List String))
    (req : AllocateRequest) : AllocOutcome × SingularityDevicePlugin :=
  (Allocate dp pathsRes devsRes req, dp)

/-- Error kinds of `NewSingularityDevicePlugin`.  `unableToLoad` is the
sentinel `ErrUnableToLoad`, `noGPUs` the sentinel `ErrNoGPUs`; the other
constructors are the wrapped collaborator errors. -/
inductive InitError where
  | runtimeNotFound (msg : String)
  | configError (msg : String)
  | unableToLoad
  | noGPUs
  | devicesError (msg : String)
  | monitorError (msg : String)
deriving DecidableEq, Repr

/-- `NewSingularityDevicePlugin`.  The collaborator outcomes are
passed as parameters: `lookPath` for `exec.LookPath`, `buildConfig` for
the CLI client config (yielding the Singularity confdir), `nvmlInit`
for `nvml.Init`, `driverVersion` for `nvml.GetDriverVersion`,
`getDevices` for device enumeration, `monitorRes` for `monitorGPUs`.
Both `nvml.Init` and `nvml.GetDriverVersion` failures are collapsed to
the sentinel `ErrUnableToLoad`; an empty device list yields `ErrNoGPUs`;
the registry maps are built only after those checks, seeding every
device `Healthy`. -/
def NewSingularityDevicePlugin (lookPath : Except String Unit)
    (buildConfig : Except String String)
    (nvmlInit : Except String Unit)
    (driverVersion : Except String String)
    (getDevices : Except String (List NvmlDevice))
    (monitorRes : Except String Unit) :
    Except InitError SingularityDevicePlugin :=
  match lookPath with
  | Except.error e => Except.error (InitError.runtimeNotFound e)
  | Except.ok _ =>
    match buildConfig with
    | Except.error e => Except.error (InitError.configError e)
    | Except.ok confDir =>
      match nvmlInit with
      | Except.error _ => Except.error InitError.unableToLoad
      | Except.ok _ =>
        match driverVersion with
        | Except.error _ => Except.error InitError.unableToLoad
        | Except.ok _ =>
          match getDevices with
          | Except.error e => Except.error (InitError.devicesError e)
          | Except.ok devs =>
            if devs.isEmpty then Except.error InitError.noGPUs
            else
              match monitorRes with
              | Except.error e => Except.error (InitError.monitorError e)
              | Except.ok _ =>
                Except.ok
                  { devices :=
                      devs.foldl (fun m d => insertGo m d.uuid d) []
                    hospital :=
                      devs.foldl (fun m d => insertGo m d.uuid Health.healthy) []
                    confDir := confDir
                    done := false }

/-- The two statements of `Shutdown`, in evaluation order: closing the
`done` channel, then `nvml.Shutdown()`. -/
inductive SdAction where
  | closeDone
  | nvmlTeardown
deriving DecidableEq, Repr

/-- `Shutdown`.  Closing an already-closed Go channel panics, modelled
as `none`; otherwise the result of `nvml.Shutdown` is returned together
with the new state and the trace of the two actions in order. -/
def Shutdown (dp : SingularityDevicePlugin) (nvmlRes : Except String Unit) :
    Option (Except String Unit × SingularityDevicePlugin × List SdAction) :=
  if dp.done then none
  else
    some (nvmlRes, { dp with done := true },
      [SdAction.closeDone, SdAction.nvmlTeardown])

/-- `listK8sDevices` applied to a health map: one `Device` entry per
entry of `dp.hospital`. -/
def snapshotOf (h : GoMap Health) : List K8sDevice :=
  h.map (fun p => { id := p.1, health := p.2 })

/-- `listK8sDevices`. -/
def listK8sDevices (dp : SingularityDevicePlugin) : List K8sDevice :=
  snapshotOf dp.hospital

/-- One resolution of the `select` in the `ListAndWatch` loop: either
`dp.done` is observed closed or an id arrives on `dp.unhealthyDev`. -/
inductive WatchEvent where
  | done
  | unhealthy (id : String)
deriving DecidableEq, Repr

/-- How one `ListAndWatch` run ended: `success` is the `return nil` on
shutdown, `sendError` the status returned when `srv.Send` fails, and
`blocked` means the modelled event list ran out with the handler still
waiting in its loop. -/
inductive WatchOutcome where
  | success
  | sendError (code : GrpcCode)
  | blocked
deriving DecidableEq, Repr

/-- The write `dp.hospital[devID] = Unhealthy` performed by the
`ListAndWatch` loop on a monitor notification. -/
def markUnhealthy (dp : SingularityDevicePlugin) (i : String) :
    SingularityDevicePlugin :=
  { dp with hospital := insertGo dp.hospital i Health.unhealthy }

/-- The `for`/`select` loop of `ListAndWatch`.  `events` is the
sequence of select resolutions, `sendOk k` tells whether the k-th
`srv.Send` of the stream succeeds.  On an unhealthy notification the
handler writes `dp.hospital[devID] = Unhealthy` and sends a fresh full
snapshot.  Returns the messages handed to `srv.Send` (the failing
attempt included), the outcome, and the final plugin state. -/
def watchLoop (dp : SingularityDevicePlugin) (events : List WatchEvent)
    (sendOk : Nat → Bool) (k : Nat) :
    List (List K8sDevice) × WatchOutcome × SingularityDevicePlugin :=
  match events with
  | [] => ([], WatchOutcome.blocked, dp)
  | WatchEvent.done :: _ => ([], WatchOutcome.success, dp)
  | WatchEvent.unhealthy id :: rest =>
      let dp2 := markUnhealthy dp id
      let msg := listK8sDevices dp2
      if sendOk k then
        let r := watchLoop dp2 rest sendOk (k + 1)
        (msg :: r.1, r.2.1, r.2.2)
      else
        ([msg], WatchOutcome.sendError GrpcCode.unknown, dp2)

/-- `ListAndWatch`: send the initial full snapshot (failure returns a
`codes.Unknown` status), then enter the loop. -/
def ListAndWatch (dp : SingularityDevicePlugin) (events : List WatchEvent)
    (sendOk : Nat → Bool) :
    List (List K8sDevice) × WatchOutcome × SingularityDevicePlugin :=
  let msg0 := listK8sDevices dp
  if sendOk 0 then
    let r := watchLoop dp events sendOk 1
    (msg0 :: r.1, r.2.1, r.2.2)
  else
    ([msg0], WatchOutcome.sendError GrpcCode.unknown, dp)

/-! ### Lemmas about the Go map embedding -/

theorem keysOf_nil {α : Type} : keysOf ([] : GoMap α) = [] := rfl

theorem keysOf_cons {α : Type} (p : String × α) (m : GoMap α) :
    keysOf (p :: m) = p.1 :: keysOf m := rfl

theorem lookupA_isSome_iff {α : Type} (m : GoMap α) (k : String) :
    (lookupA m k).isSome = true ↔ k ∈ keysOf m := by
  induction m with
  | nil => simp [lookupA, keysOf]
  | cons p rest ih =>
      obtain ⟨k1, v1⟩ := p
      by_cases h : k1 = k
      · subst h
        simp [lookupA, keysOf]
      · simp [lookupA, keysOf, h, ih, Ne.symm h]

theorem keysOf_insertGo_mem {α : Type} (m : GoMap α) (k : String) (v : α)
    (h : k ∈ keysOf m) : keysOf (insertGo m k v) = keysOf m := by
  induction m with
  | nil => simp [keysOf] at h
  | cons p rest ih =>
      obtain ⟨k1, v1⟩ := p
      by_cases hk : k1 = k
      · subst hk
        simp [insertGo, keysOf_cons]
      · have h2 : k ∈ keysOf rest := by
          rw [keysOf_cons] at h
          rcases List.mem_cons.mp h with h3 | h3
          · exact absurd h3.symm hk
          · exact h3
        have hins : insertGo ((k1, v1) :: rest) k v = (k1, v1) :: insertGo rest k v := by
          simp [insertGo, hk]
        rw [hins, keysOf_cons, keysOf_cons, ih h2]

theorem keysOf_insertGo_not_mem {α : Type} (m : GoMap α) (k : String) (v : α)
    (h : k ∉ keysOf m) : keysOf (insertGo m k v) = keysOf m ++ [k] := by
  induction m with
  | nil => simp [insertGo, keysOf]
  | cons p rest ih =>
      obtain ⟨k1, v1⟩ := p
      rw [keysOf_cons] at h
      have hk : k1 ≠ k := by
        intro hq
        exact h (by simp [hq])
      have h2 : k ∉ keysOf rest := by
        intro hq
        exact h (List.mem_cons_of_mem _ hq)
      have hins : insertGo ((k1, v1) :: rest) k v = (k1, v1) :: insertGo rest k v := by
        simp [insertGo, hk]
      rw [hins, keysOf_cons, keysOf_cons, ih h2]
      rfl

theorem lookupA_insertGo_self {α : Type} (m : GoMap α) (k : String) (v : α) :
    lookupA (insertGo m k v) k = some v := by
  induction m with
  | nil => simp [insertGo, lookupA]
  | cons p rest ih =>
      obtain ⟨k1, v1⟩ := p
      by_cases hk : k1 = k
      · subst hk
        simp [insertGo, lookupA]
      · simp [insertGo, hk, lookupA, ih]

theorem lookupA_insertGo_ne {α : Type} (m : GoMap α) (k k2 : String) (v : α)
    (h : k ≠ k2) : lookupA (insertGo m k v) k2 = lookupA m k2 := by
  induction m with
  | nil => simp [insertGo, lookupA, h]
  | cons p rest ih =>
      obtain ⟨k1, v1⟩ := p
      by_cases hk : k1 = k
      · subst hk
        simp [insertGo, lookupA, h]
      · simp [insertGo, hk, lookupA, ih]

theorem insertGo_lookup_eq {α : Type} (m : GoMap α) (k : String) (v : α)
    (h : lookupA m k = some v) : insertGo m k v = m := by
  induction m with
  | nil => simp [lookupA] at h
  | cons p rest ih =>
      obtain ⟨k1, v1⟩ := p
      by_cases hk : k1 = k
      · subst hk
        have : v1 = v := by simpa [lookupA] using h
        subst this
        simp [insertGo]
      · have h2 : lookupA rest k = some v := by simpa [lookupA, hk] using h
        simp [insertGo, hk, ih h2]

theorem mem_insertGo {α : Type} (m : GoMap α) (k : String) (v : α)
    (p : String × α) (hp : p ∈ insertGo m k v) : p ∈ m ∨ p = (k, v) := by
  induction m with
  | nil =>
      have h : p = (k, v) := by simpa [insertGo] using hp
      exact Or.inr h
  | cons q rest ih =>
      obtain ⟨k1, v1⟩ := q
      by_cases hk : k1 = k
      · subst hk
        have hp2 : p = (k1, v) ∨ p ∈ rest := by simpa [insertGo] using hp
        rcases hp2 with h | h
        · exact Or.inr (by simp [h])
        · exact Or.inl (List.mem_cons_of_mem _ h)
      · have hp2 : p = (k1, v1) ∨ p ∈ insertGo rest k v := by
          simpa [insertGo, hk] using hp
        rcases hp2 with h | h
        · exact Or.inl (by simp [h])
        · rcases ih h with h2 | h2
          · exact Or.inl (List.mem_cons_of_mem _ h2)
          · exact Or.inr h2

theorem mem_of_lookupA {α : Type} (m : GoMap α) (k : String) (v : α)
    (h : lookupA m k = some v) : (k, v) ∈ m := by
  induction m with
  | nil => simp [lookupA] at h
  | cons p rest ih =>
      obtain ⟨k1, v1⟩ := p
      by_cases hk : k1 = k
      · subst hk
        have : v1 = v := by simpa [lookupA] using h
        simp [this]
      · have h2 : lookupA rest k = some v := by simpa [lookupA, hk] using h
        simp [ih h2]

theorem lookupA_of_mem_nodup {α : Type} (m : GoMap α) (k : String) (v : α)
    (hnd : (keysOf m).Nodup) (hp : (k, v) ∈ m) : lookupA m k = some v := by
  induction m with
  | nil => simp at hp
  | cons p rest ih =>
      obtain ⟨k1, v1⟩ := p
      rw [keysOf_cons] at hnd
      have hnd1 : k1 ∉ keysOf rest := (List.nodup_cons.mp hnd).1
      have hnd2 : (keysOf rest).Nodup := (List.nodup_cons.mp hnd).2
      have hp2 : (k, v) = (k1, v1) ∨ (k, v) ∈ rest := by simpa using hp
      rcases hp2 with h | h
      · have h1 : k1 = k := (congrArg Prod.fst h).symm
        have h2 : v1 = v := (congrArg Prod.snd h).symm
        simp [lookupA, h1, h2]
      · have hk : k1 ≠ k := by
          intro hq
          subst hq
          exact hnd1 (by simpa [keysOf] using List.mem_map_of_mem Prod.fst h)
        simp [lookupA, hk, ih hnd2 h]

theorem nodup_keys_insertGo {α : Type} (m : GoMap α) (k : String) (v : α)
    (hnd : (keysOf m).Nodup) : (keysOf (insertGo m k v)).Nodup := by
  by_cases h : k ∈ keysOf m
  · rw [keysOf_insertGo_mem m k v h]
    exact hnd
  · rw [keysOf_insertGo_not_mem m k v h]
    simpa using List.Nodup.append hnd (by simp) (by simpa using h)

/-! ### Lemmas about initialization -/

theorem init_ok_elim (lp : Except String Unit) (bc : Except String String)
    (ni : Except String Unit) (dv : Except String String)
    (gd : Except String (List NvmlDevice)) (mo : Except String Unit)
    (dp : SingularityDevicePlugin)
    (h : NewSingularityDevicePlugin lp bc ni dv gd mo = Except.ok dp) :
    ∃ confDir devs, gd = Except.ok devs ∧ devs ≠ [] ∧
      dp = { devices := devs.foldl (fun m d => insertGo m d.uuid d) []
             hospital := devs.foldl (fun m d => insertGo m d.uuid Health.healthy) []
             confDir := confDir
             done := false } := by
  cases lp with
  | error e => simp [NewSingularityDevicePlugin] at h
  | ok u =>
    cases bc with
    | error e => simp [NewSingularityDevicePlugin] at h
    | ok confDir =>
      cases ni with
      | error e => simp [NewSingularityDevicePlugin] at h
      | ok u2 =>
        cases dv with
        | error e => simp [NewSingularityDevicePlugin] at h
        | ok ver =>
          cases gd with
          | error e => simp [NewSingularityDevicePlugin] at h
          | ok devs =>
            by_cases hd : devs.isEmpty = true
            · simp [NewSingularityDevicePlugin, hd] at h
            · cases mo with
              | error e => simp [NewSingularityDevicePlugin, hd] at h
              | ok u3 =>
                refine ⟨confDir, devs, rfl, by simpa [List.isEmpty_iff] using hd, ?_⟩
                have h2 := h
                simp [NewSingularityDevicePlugin, hd] at h2
                exact h2.symm

theorem keysOf_fold_insert_eq (devs : List NvmlDevice) :
    ∀ (m1 : GoMap NvmlDevice) (m2 : GoMap Health), keysOf m1 = keysOf m2 →
      keysOf (devs.foldl (fun m d => insertGo m d.uuid d) m1)
        = keysOf (devs.foldl (fun m d => insertGo m d.uuid Health.healthy) m2) := by
  induction devs with
  | nil => intro m1 m2 h; simpa using h
  | cons d rest ih =>
      intro m1 m2 h
      simp only [List.foldl_cons]
      apply ih
      by_cases hm : d.uuid ∈ keysOf m1
      · rw [keysOf_insertGo_mem m1 d.uuid d hm,
          keysOf_insertGo_mem m2 d.uuid Health.healthy (h ▸ hm)]
        exact h
      · rw [keysOf_insertGo_not_mem m1 d.uuid d hm,
          keysOf_insertGo_not_mem m2 d.uuid Health.healthy (fun hq => hm (h ▸ hq))]
        exact congrArg (fun l => l ++ [d.uuid]) h

theorem fold_hospital_all_healthy (devs : List NvmlDevice) :
    ∀ (m : GoMap Health), (∀ p, p ∈ m → p.2 = Health.healthy) →
      ∀ p, p ∈ devs.foldl (fun m d => insertGo m d.uuid Health.healthy) m →
        p.2 = Health.healthy := by
  induction devs with
  | nil => intro m hm p hp; exact hm p hp
  | cons d rest ih =>
      intro m hm p hp
      refine ih (insertGo m d.uuid Health.healthy) ?_ p hp
      intro q hq
      rcases mem_insertGo m d.uuid Health.healthy q hq with h | h
      · exact hm q h
      · rw [h]

theorem fold_hospital_nodup (devs : List NvmlDevice) :
    ∀ (m : GoMap Health), (keysOf m).Nodup →
      (keysOf (devs.foldl (fun m d => insertGo m d.uuid Health.healthy) m)).Nodup := by
  induction devs with
  | nil => intro m hm; exact hm
  | cons d rest ih =>
      intro m hm
      exact ih _ (nodup_keys_insertGo m d.uuid Health.healthy hm)

/-! ### Lemmas about the watch loop -/

/-- The health map obtained by applying a sequence of mark-unhealthy
writes in order. -/
def applyAll (h : GoMap Health) (ns : List String) : GoMap Health :=
  ns.foldl (fun h id => insertGo h id Health.unhealthy) h

theorem lookupA_applyAll_not_mem (ns : List String) :
    ∀ (h : GoMap Health) (id : String), id ∉ ns →
      lookupA (applyAll h ns) id = lookupA h id := by
  induction ns with
  | nil => intro h id _; rfl
  | cons n rest ih =>
      intro h id hid
      have h1 : id ≠ n := fun hq => hid (by simp [hq])
      have h2 : id ∉ rest := fun hq => hid (List.mem_cons_of_mem _ hq)
      show lookupA (applyAll (insertGo h n Health.unhealthy) rest) id = lookupA h id
      rw [ih _ id h2, lookupA_insertGo_ne h n id Health.unhealthy (Ne.symm h1)]

theorem lookupA_applyAll_mem (ns : List String) :
    ∀ (h : GoMap Health) (id : String), id ∈ ns →
      lookupA (applyAll h ns) id = some Health.unhealthy := by
  induction ns with
  | nil => intro h id hid; simp at hid
  | cons n rest ih =>
      intro h id hid
      by_cases hr : id ∈ rest
      · exact ih _ id hr
      · have h1 : id = n := by
          rcases List.mem_cons.mp hid with h2 | h2
          · exact h2
          · exact absurd h2 hr
        subst h1
        show lookupA (applyAll (insertGo h id Health.unhealthy) rest) id = some Health.unhealthy
        rw [lookupA_applyAll_not_mem rest _ id hr, lookupA_insertGo_self]

theorem keysOf_applyAll (ns : List String) :
    ∀ (h : GoMap Health), (∀ id, id ∈ ns → id ∈ keysOf h) →
      keysOf (applyAll h ns) = keysOf h := by
  induction ns with
  | nil => intro h _; rfl
  | cons n rest ih =>
      intro h hin
      have h1 : n ∈ keysOf h := hin n (by simp)
      have hk : keysOf (insertGo h n Health.unhealthy) = keysOf h :=
        keysOf_insertGo_mem h n Health.unhealthy h1
      show keysOf (applyAll (insertGo h n Health.unhealthy) rest) = keysOf h
      rw [ih _ (fun id hid => by rw [hk]; exact hin id (List.mem_cons_of_mem _ hid)), hk]

theorem mem_snapshotOf (h : GoMap Health) (d : K8sDevice) :
    d ∈ snapshotOf h ↔ (d.id, d.health) ∈ h := by
  constructor
  · intro hd
    rcases List.mem_map.mp hd with ⟨p, hp, he⟩
    obtain ⟨a, b⟩ := p
    cases he
    exact hp
  · intro hd
    exact List.mem_map.mpr ⟨(d.id, d.health), hd, rfl⟩

theorem watchLoop_unhealthy_eq (dp : SingularityDevicePlugin) (i : String)
    (rest : List WatchEvent) (sendOk : Nat → Bool) (k : Nat) :
    watchLoop dp (WatchEvent.unhealthy i :: rest) sendOk k =
      if sendOk k then
        (listK8sDevices (markUnhealthy dp i)
            :: (watchLoop (markUnhealthy dp i) rest sendOk (k + 1)).1,
          (watchLoop (markUnhealthy dp i) rest sendOk (k + 1)).2.1,
          (watchLoop (markUnhealthy dp i) rest sendOk (k + 1)).2.2)
      else
        ([listK8sDevices (markUnhealthy dp i)],
          WatchOutcome.sendError GrpcCode.unknown, markUnhealthy dp i) := by
  by_cases hs : sendOk k = true
  · simp [watchLoop, hs]
  · simp [watchLoop, hs]

theorem markUnhealthy_hospital (dp : SingularityDevicePlugin) (i : String) :
    (markUnhealthy dp i).hospital = insertGo dp.hospital i Health.unhealthy := rfl

theorem markUnhealthy_devices (dp : SingularityDevicePlugin) (i : String) :
    (markUnhealthy dp i).devices = dp.devices := rfl

theorem watchLoop_invariants (events : List WatchEvent) :
    ∀ (dp : SingularityDevicePlugin) (sendOk : Nat → Bool) (k : Nat),
      (∀ i, WatchEvent.unhealthy i ∈ events → i ∈ keysOf dp.hospital) →
      (∀ m, m ∈ (watchLoop dp events sendOk k).1 →
          ∃ h, keysOf h = keysOf dp.hospital ∧ m = snapshotOf h)
      ∧ keysOf (watchLoop dp events sendOk k).2.2.hospital = keysOf dp.hospital
      ∧ (watchLoop dp events sendOk k).2.2.devices = dp.devices := by
  induction events with
  | nil =>
      intro dp sendOk k _
      refine ⟨?_, rfl, rfl⟩
      intro m hm
      simp [watchLoop] at hm
  | cons e rest ih =>
      intro dp sendOk k hknown
      cases e with
      | done =>
          refine ⟨?_, rfl, rfl⟩
          intro m hm
          simp [watchLoop] at hm
      | unhealthy i =>
          have hik : i ∈ keysOf dp.hospital := hknown i (by simp)
          have hkeys2 : keysOf (markUnhealthy dp i).hospital = keysOf dp.hospital :=
            keysOf_insertGo_mem _ _ _ hik
          have hknown2 : ∀ j, WatchEvent.unhealthy j ∈ rest →
              j ∈ keysOf (markUnhealthy dp i).hospital := by
            intro j hj
            rw [hkeys2]
            exact hknown j (List.mem_cons_of_mem _ hj)
          obtain ⟨ih1, ih2, ih3⟩ := ih (markUnhealthy dp i) sendOk (k + 1) hknown2
          rw [watchLoop_unhealthy_eq]
          by_cases hs : sendOk k = true
          · rw [if_pos hs]
            refine ⟨?_, ih2.trans hkeys2, ih3⟩
            intro m hm
            rcases List.mem_cons.mp hm with h | h
            · exact ⟨(markUnhealthy dp i).hospital, hkeys2, h⟩
            · rcases ih1 m h with ⟨hh, hh1, hh2⟩
              exact ⟨hh, hh1.trans hkeys2, hh2⟩
          · rw [if_neg hs]
            refine ⟨?_, hkeys2, rfl⟩
            intro m hm
            have h : m = listK8sDevices (markUnhealthy dp i) := by simpa using hm
            exact ⟨(markUnhealthy dp i).hospital, hkeys2, h⟩

theorem watchLoop_outcome_cases (events : List WatchEvent) :
    ∀ (dp : SingularityDevicePlugin) (sendOk : Nat → Bool) (k : Nat),
      ((watchLoop dp events sendOk k).2.1 = WatchOutcome.blocked
        ∨ (watchLoop dp events sendOk k).2.1 = WatchOutcome.success
        ∨ (watchLoop dp events sendOk k).2.1
            = WatchOutcome.sendError GrpcCode.unknown)
      ∧ ((watchLoop dp events sendOk k).2.1 = WatchOutcome.success →
          WatchEvent.done ∈ events) := by
  induction events with
  | nil =>
      intro dp sendOk k
      exact ⟨Or.inl rfl, by intro h; simp [watchLoop] at h⟩
  | cons e rest ih =>
      intro dp sendOk k
      cases e with
      | done => exact ⟨Or.inr (Or.inl rfl), fun _ => by simp⟩
      | unhealthy i =>
          rw [watchLoop_unhealthy_eq]
          by_cases hs : sendOk k = true
          · rw [if_pos hs]
            obtain ⟨h1, h2⟩ := ih (markUnhealthy dp i) sendOk (k + 1)
            exact ⟨h1, fun hsucc => List.mem_cons_of_mem _ (h2 hsucc)⟩
          · rw [if_neg hs]
            exact ⟨Or.inr (Or.inr rfl), by intro h; simp at h⟩

theorem watchLoop_allOk_final (ns : List String) :
    ∀ (dp : SingularityDevicePlugin) (k : Nat),
      (watchLoop dp (ns.map WatchEvent.unhealthy) (fun _ => true) k).2.2
        = { dp with hospital := applyAll dp.hospital ns } := by
  induction ns with
  | nil => intro dp k; rfl
  | cons n rest ih =>
      intro dp k
      rw [List.map_cons, watchLoop_unhealthy_eq, if_pos rfl]
      show (watchLoop (markUnhealthy dp n) (rest.map WatchEvent.unhealthy)
          (fun _ => true) (k + 1)).2.2 = _
      rw [ih (markUnhealthy dp n) (k + 1)]
      rfl

theorem mapMO_eq_map {α β : Type} (l : List α) (f : α → Option β) (g : α → β)
    (h : ∀ a, a ∈ l → f a = some (g a)) : mapMO l f = some (l.map g) := by
  induction l with
  | nil => rfl
  | cons a as ih =>
      rw [List.map_cons]
      simp [mapMO, h a (by simp), ih (fun x hx => h x (List.mem_cons_of_mem _ hx))]

theorem mapMO_eq_filterMap {α β : Type} (l : List α) (f : α → Option β)
    (h : ∀ a, a ∈ l → (f a).isSome = true) :
    mapMO l f = some (l.filterMap f) := by
  induction l with
  | nil => rfl
  | cons a as ih =>
      obtain ⟨b, hb⟩ := Option.isSome_iff_exists.mp (h a (by simp))
      rw [List.filterMap_cons_some hb]
      simp [mapMO, hb, ih (fun x hx => h x (List.mem_cons_of_mem _ hx))]

/-! ### Concrete fixtures for the witnesses -/

/-- Example GPU with a stable UUID and device-node path. -/
def devA : NvmlDevice := { uuid := "GPU-aaaa", path := "/dev/nvidia0" }

/-- A second example GPU. -/
def devB : NvmlDevice := { uuid := "GPU-bbbb", path := "/dev/nvidia1" }

/-- A freshly initialized two-device plugin state. -/
def dpEx : SingularityDevicePlugin :=
  { devices := [("GPU-aaaa", devA), ("GPU-bbbb", devB)]
    hospital := [("GPU-aaaa", Health.healthy), ("GPU-bbbb", Health.healthy)]
    confDir := "/usr/local/etc/singularity"
    done := false }

/-- The same registry as `dpEx` with different health state,
configuration directory, and shutdown flag. -/
def dpEx2 : SingularityDevicePlugin :=
  { devices := [("GPU-aaaa", devA), ("GPU-bbbb", devB)]
    hospital := [("GPU-aaaa", Health.unhealthy), ("GPU-bbbb", Health.healthy)]
    confDir := "/etc/alt"
    done := true }

/-! ### The claims -/

/-- Claim C1 (code bug): `Allocate` on a batch whose second container
requests an id absent from the registry does not yield a per-container
not-found failure.  The unchecked map read `dp.devices[devID]` yields a
nil device and the `device.Path` dereference panics, crashing the whole
call, so the first container of the batch loses its allocation too. -/
theorem allocate_unknown_id_panics :
    Allocate dpEx
      (Except.ok (["/lib/libnvidia-ml.so"], ["/bin/nvidia-smi"]))
      (Except.ok ["/dev/nvidiactl"])
      { containerRequests := [["GPU-aaaa"], ["GPU-ghost"]] }
      = AllocOutcome.panic := by
  decide

/-- Claim C4: when every requested id is a registry key, `Allocate`
returns one response per container request in request order; each
response carries the shared mount list (a read-only mount per library
path then per binary path, container path equal to host path) and a
device-spec list with the complementary devices first (rw, container
path equal to host path) followed by one rw spec per requested id in
request order using the host path recorded in the registry. -/
theorem allocate_known_ids_structure
    (dp : SingularityDevicePlugin) (nvLibs nvBins nvDevs : List String)
    (req : AllocateRequest)
    (hknown : ∀ ids, ids ∈ req.containerRequests →
        ∀ i, i ∈ ids → i ∈ keysOf dp.devices) :
    Allocate dp (Except.ok (nvLibs, nvBins)) (Except.ok nvDevs) req
      = AllocOutcome.ok
          { containerResponses :=
              req.containerRequests.map (fun ids =>
                { mounts := buildMounts nvLibs nvBins
                  devices := compSpecs nvDevs
                      ++ ids.filterMap (specOf dp.devices) }) } := by
  have hmap : mapMO req.containerRequests (fun ids =>
      (containerDevices dp.devices nvDevs ids).map
        (fun ds => ContainerAllocateResponse.mk (buildMounts nvLibs nvBins) ds))
      = some (req.containerRequests.map (fun ids =>
          { mounts := buildMounts nvLibs nvBins
            devices := compSpecs nvDevs ++ ids.filterMap (specOf dp.devices) })) := by
    apply mapMO_eq_map
    intro ids hids
    have hspec : mapMO ids (specOf dp.devices)
        = some (ids.filterMap (specOf dp.devices)) := by
      apply mapMO_eq_filterMap
      intro i hi
      have hk : i ∈ keysOf dp.devices := hknown ids hids i hi
      have hsome : (lookupA dp.devices i).isSome = true :=
        (lookupA_isSome_iff dp.devices i).mpr hk
      simp [specOf, Option.isSome_map]
      exact hsome
    simp [containerDevices, hspec]
  simp [Allocate, hmap]

/-- Claim C9: `Allocate` mutates no plugin state — the device map,
health map, configuration directory, and shutdown signal are the same
before and after the call whether it succeeds, errors, or panics — and
for a fixed registry and fixed resolver outputs the outcome is a
deterministic function of the request. -/
theorem allocate_no_mutation_deterministic
    (dp : SingularityDevicePlugin)
    (pathsRes : Except String (List String × List String))
    (devsRes : Except String (List String)) (req : AllocateRequest) :
    (AllocateSt dp pathsRes devsRes req).2 = dp
    ∧ ∀ dp2 : SingularityDevicePlugin, dp2.devices = dp.devices →
        (AllocateSt dp2 pathsRes devsRes req).1
          = (AllocateSt dp pathsRes devsRes req).1 := by
  refine ⟨rfl, ?_⟩
  intro dp2 hdev
  show Allocate dp2 pathsRes devsRes req = Allocate dp pathsRes devsRes req
  cases pathsRes with
  | error e => rfl
  | ok lb =>
      obtain ⟨nvLibs, nvBins⟩ := lb
      cases devsRes with
      | error e => rfl
      | ok nvDevs => simp [Allocate, hdev]

theorem ListAndWatch_eq (dp : SingularityDevicePlugin) (events : List WatchEvent)
    (sendOk : Nat → Bool) :
    ListAndWatch dp events sendOk =
      if sendOk 0 then
        (listK8sDevices dp :: (watchLoop dp events sendOk 1).1,
          (watchLoop dp events sendOk 1).2.1,
          (watchLoop dp events sendOk 1).2.2)
      else ([listK8sDevices dp], WatchOutcome.sendError GrpcCode.unknown, dp) := by
  by_cases hs : sendOk 0 = true
  · simp [ListAndWatch, hs]
  · simp [ListAndWatch, hs]

/-- Claim C2 counterexample: a monitor notification carrying an id that
is not a registry key is not ignored — the Go map write
`dp.hospital[devID] = Unhealthy` inserts the unknown id into the health
map, so the health map changes and its key set no longer equals the
device map's key set. -/
theorem unknown_notification_changes_health_map :
    (ListAndWatch dpEx [WatchEvent.unhealthy "GPU-ghost"] (fun _ => true)).2.2.hospital
        ≠ dpEx.hospital
    ∧ keysOf (ListAndWatch dpEx [WatchEvent.unhealthy "GPU-ghost"]
          (fun _ => true)).2.2.hospital
        ≠ keysOf (ListAndWatch dpEx [WatchEvent.unhealthy "GPU-ghost"]
          (fun _ => true)).2.2.devices := by
  constructor
  · decide
  · decide

/-- Claim C2 (amended): after successful initialization the key sets of
the device map and the health map are equal and every device is
Healthy, and the equality is preserved by every watch-loop run whose
notifications all carry known registry keys; a notification for an
unknown id does not panic and leaves the device map unchanged, but
instead of being ignored it inserts the id into the health map as
Unhealthy, so the key-set equality is not preserved in that case. -/
theorem registry_key_set_invariant
    (lp : Except String Unit) (bc : Except String String) (ni : Except String Unit)
    (dv : Except String String) (gd : Except String (List NvmlDevice))
    (mo : Except String Unit) (dp0 : SingularityDevicePlugin)
    (hinit : NewSingularityDevicePlugin lp bc ni dv gd mo = Except.ok dp0)
    (dp : SingularityDevicePlugin) (events : List WatchEvent) (sendOk : Nat → Bool)
    (hkeys : keysOf dp.devices = keysOf dp.hospital)
    (hknown : ∀ i, WatchEvent.unhealthy i ∈ events → i ∈ keysOf dp.hospital) :
    keysOf dp0.devices = keysOf dp0.hospital
    ∧ (∀ p, p ∈ dp0.hospital → p.2 = Health.healthy)
    ∧ keysOf (ListAndWatch dp events sendOk).2.2.devices
        = keysOf (ListAndWatch dp events sendOk).2.2.hospital
    ∧ ∀ (dpu : SingularityDevicePlugin) (i : String), i ∉ keysOf dpu.hospital →
        (markUnhealthy dpu i).devices = dpu.devices
        ∧ lookupA (markUnhealthy dpu i).hospital i = some Health.unhealthy
        ∧ keysOf (markUnhealthy dpu i).hospital = keysOf dpu.hospital ++ [i] := by
  obtain ⟨confDir, devs, hgd, hne, hdp⟩ :=
    init_ok_elim lp bc ni dv gd mo dp0 hinit
  subst hdp
  refine ⟨?_, ?_, ?_, ?_⟩
  · exact keysOf_fold_insert_eq devs [] [] rfl
  · intro p hp
    exact fold_hospital_all_healthy devs [] (by intro q hq; simp at hq) p hp
  · obtain ⟨_, h2, h3⟩ := watchLoop_invariants events dp sendOk 1 hknown
    rw [ListAndWatch_eq]
    by_cases hs : sendOk 0 = true
    · rw [if_pos hs]
      show keysOf (watchLoop dp events sendOk 1).2.2.devices
          = keysOf (watchLoop dp events sendOk 1).2.2.hospital
      rw [h2, h3]
      exact hkeys
    · rw [if_neg hs]
      exact hkeys
  · intro dpu i hi
    exact ⟨rfl, lookupA_insertGo_self dpu.hospital i Health.unhealthy,
      keysOf_insertGo_not_mem dpu.hospital i Health.unhealthy hi⟩

theorem registry_key_set_invariant_witness :
    keysOf dpEx.devices = keysOf dpEx.hospital
    ∧ (∀ p, p ∈ dpEx.hospital → p.2 = Health.healthy)
    ∧ keysOf (ListAndWatch dpEx [WatchEvent.unhealthy "GPU-aaaa"]
          (fun _ => true)).2.2.devices
        = keysOf (ListAndWatch dpEx [WatchEvent.unhealthy "GPU-aaaa"]
          (fun _ => true)).2.2.hospital
    ∧ ∀ (dpu : SingularityDevicePlugin) (i : String), i ∉ keysOf dpu.hospital →
        (markUnhealthy dpu i).devices = dpu.devices
        ∧ lookupA (markUnhealthy dpu i).hospital i = some Health.unhealthy
        ∧ keysOf (markUnhealthy dpu i).hospital = keysOf dpu.hospital ++ [i] :=
  registry_key_set_invariant (Except.ok ()) (Except.ok "/usr/local/etc/singularity")
    (Except.ok ()) (Except.ok "460.00") (Except.ok [devA, devB]) (Except.ok ())
    dpEx rfl dpEx [WatchEvent.unhealthy "GPU-aaaa"] (fun _ => true) (by decide)
    (by intro i hi; simp at hi; subst hi; decide)

/-- An already-shut-down plugin state. -/
def dpDone : SingularityDevicePlugin :=
  { devices := [("GPU-aaaa", devA)]
    hospital := [("GPU-aaaa", Health.healthy)]
    confDir := "/usr/local/etc/singularity"
    done := true }

/-- Claim C3 counterexample: calling `Shutdown` when the shutdown
signal is already closed is not a safe no-op — closing a closed Go
channel panics. -/
theorem double_shutdown_panics :
    Shutdown dpDone (Except.ok ()) = none := rfl

/-- Claim C3 (amended): a first `Shutdown` call closes the shutdown
signal and then tears down the monitoring subsystem — signal first,
collaborator teardown second — but a second call panics on the
double close rather than being a safe no-op. -/
theorem shutdown_once_order
    (dp : SingularityDevicePlugin) (nvmlRes : Except String Unit) :
    (dp.done = false →
      Shutdown dp nvmlRes
        = some (nvmlRes, { dp with done := true },
            [SdAction.closeDone, SdAction.nvmlTeardown]))
    ∧ (dp.done = true → Shutdown dp nvmlRes = none) := by
  constructor
  · intro h
    simp [Shutdown, h]
  · intro h
    simp [Shutdown, h]

theorem shutdown_once_order_witness :
    Shutdown dpEx (Except.ok ())
        = some (Except.ok (), { dpEx with done := true },
            [SdAction.closeDone, SdAction.nvmlTeardown])
    ∧ Shutdown dpEx2 (Except.ok ()) = none :=
  ⟨(shutdown_once_order dpEx (Except.ok ())).1 rfl,
    (shutdown_once_order dpEx2 (Except.ok ())).2 rfl⟩

/-- Claim C8: plugin construction surfaces two distinct error kinds —
the load-failure sentinel when NVML fails to initialize or to report a
driver version, and the no-devices sentinel when initialization
succeeds but enumeration yields an empty set — and in both cases the
result is an error: no registry is built and no plugin starts serving. -/
theorem init_error_kinds
    (bc : Except String String) (ni : Except String Unit) (dv : Except String String)
    (gd : Except String (List NvmlDevice)) (mo : Except String Unit)
    (hbc : ∃ c, bc = Except.ok c) :
    (∀ e, ni = Except.error e →
        NewSingularityDevicePlugin (Except.ok ()) bc ni dv gd mo
          = Except.error InitError.unableToLoad)
    ∧ (∀ e, ni = Except.ok () → dv = Except.error e →
        NewSingularityDevicePlugin (Except.ok ()) bc ni dv gd mo
          = Except.error InitError.unableToLoad)
    ∧ (ni = Except.ok () → (∃ v, dv = Except.ok v) → gd = Except.ok [] →
        NewSingularityDevicePlugin (Except.ok ()) bc ni dv gd mo
          = Except.error InitError.noGPUs)
    ∧ InitError.unableToLoad ≠ InitError.noGPUs := by
  obtain ⟨c, hc⟩ := hbc
  subst hc
  refine ⟨?_, ?_, ?_, by decide⟩
  · intro e he
    subst he
    rfl
  · intro e hni he
    subst hni
    subst he
    rfl
  · rintro hni ⟨v, hv⟩ hgd
    subst hni
    subst hv
    subst hgd
    rfl

theorem init_error_kinds_witness :
    NewSingularityDevicePlugin (Except.ok ()) (Except.ok "/etc/singularity")
        (Except.error "cannot load libnvidia-ml") (Except.ok "460.00")
        (Except.ok [devA]) (Except.ok ())
      = Except.error InitError.unableToLoad
    ∧ NewSingularityDevicePlugin (Except.ok ()) (Except.ok "/etc/singularity")
        (Except.ok ()) (Except.error "no driver") (Except.ok [devA]) (Except.ok ())
      = Except.error InitError.unableToLoad
    ∧ NewSingularityDevicePlugin (Except.ok ()) (Except.ok "/etc/singularity")
        (Except.ok ()) (Except.ok "460.00") (Except.ok []) (Except.ok ())
      = Except.error InitError.noGPUs :=
  ⟨(init_error_kinds (Except.ok "/etc/singularity")
      (Except.error "cannot load libnvidia-ml") (Except.ok "460.00")
      (Except.ok [devA]) (Except.ok ()) ⟨_, rfl⟩).1 _ rfl,
    (init_error_kinds (Except.ok "/etc/singularity") (Except.ok ())
      (Except.error "no driver") (Except.ok [devA]) (Except.ok ()) ⟨_, rfl⟩).2.1 _ rfl rfl,
    (init_error_kinds (Except.ok "/etc/singularity") (Except.ok ())
      (Except.ok "460.00") (Except.ok []) (Except.ok ()) ⟨_, rfl⟩).2.2.1 rfl ⟨_, rfl⟩ rfl⟩

theorem allocate_known_ids_structure_witness :
    Allocate dpEx
      (Except.ok (["/lib/libnvidia-ml.so"], ["/bin/nvidia-smi"]))
      (Except.ok ["/dev/nvidiactl"])
      { containerRequests := [["GPU-aaaa", "GPU-bbbb"], ["GPU-bbbb"]] }
      = AllocOutcome.ok
          { containerResponses :=
              ([["GPU-aaaa", "GPU-bbbb"], ["GPU-bbbb"]] : List (List String)).map
                (fun ids =>
                  { mounts := buildMounts ["/lib/libnvidia-ml.so"] ["/bin/nvidia-smi"]
                    devices := compSpecs ["/dev/nvidiactl"]
                        ++ ids.filterMap (specOf dpEx.devices) }) } :=
  allocate_known_ids_structure dpEx ["/lib/libnvidia-ml.so"] ["/bin/nvidia-smi"]
    ["/dev/nvidiactl"]
    { containerRequests := [["GPU-aaaa", "GPU-bbbb"], ["GPU-bbbb"]] }
    (by intro ids hids i hi; simp at hids; rcases hids with h | h <;> subst h <;>
      simp at hi <;> first
        | (rcases hi with h2 | h2 <;> subst h2 <;> decide)
        | (subst hi; decide))

theorem allocate_no_mutation_deterministic_witness :
    (AllocateSt dpEx (Except.ok (["/lib/libnvidia-ml.so"], ["/bin/nvidia-smi"]))
        (Except.ok ["/dev/nvidiactl"]) { containerRequests := [["GPU-aaaa"]] }).2
      = dpEx
    ∧ (AllocateSt dpEx2 (Except.ok (["/lib/libnvidia-ml.so"], ["/bin/nvidia-smi"]))
        (Except.ok ["/dev/nvidiactl"]) { containerRequests := [["GPU-aaaa"]] }).1
      = (AllocateSt dpEx (Except.ok (["/lib/libnvidia-ml.so"], ["/bin/nvidia-smi"]))
        (Except.ok ["/dev/nvidiactl"]) { containerRequests := [["GPU-aaaa"]] }).1 :=
  ⟨(allocate_no_mutation_deterministic dpEx
      (Except.ok (["/lib/libnvidia-ml.so"], ["/bin/nvidia-smi"]))
      (Except.ok ["/dev/nvidiactl"]) { containerRequests := [["GPU-aaaa"]] }).1,
    (allocate_no_mutation_deterministic dpEx
      (Except.ok (["/lib/libnvidia-ml.so"], ["/bin/nvidia-smi"]))
      (Except.ok ["/dev/nvidiactl"]) { containerRequests := [["GPU-aaaa"]] }).2
      dpEx2 rfl⟩

/-- Claim C5: the first message handed to a newly opened watch stream
is the full snapshot of the current health map — immediately after
initialization every device is Healthy — and every message on the
stream is a full snapshot over the complete known key set, never a
delta. -/
theorem watch_stream_full_snapshots
    (lp : Except String Unit) (bc : Except String String) (ni : Except String Unit)
    (dv : Except String String) (gd : Except String (List NvmlDevice))
    (mo : Except String Unit) (dp0 : SingularityDevicePlugin)
    (hinit : NewSingularityDevicePlugin lp bc ni dv gd mo = Except.ok dp0)
    (dp : SingularityDevicePlugin) (events : List WatchEvent) (sendOk : Nat → Bool)
    (hknown : ∀ i, WatchEvent.unhealthy i ∈ events → i ∈ keysOf dp.hospital) :
    (∀ d, d ∈ listK8sDevices dp0 → d.health = Health.healthy)
    ∧ (ListAndWatch dp events sendOk).1.head? = some (listK8sDevices dp)
    ∧ ∀ m, m ∈ (ListAndWatch dp events sendOk).1 →
        ∃ h, keysOf h = keysOf dp.hospital ∧ m = snapshotOf h := by
  obtain ⟨confDir, devs, hgd, hne, hdp⟩ := init_ok_elim lp bc ni dv gd mo dp0 hinit
  refine ⟨?_, ?_, ?_⟩
  · intro d hd
    have hmem : (d.id, d.health) ∈ dp0.hospital :=
      (mem_snapshotOf dp0.hospital d).mp hd
    have hmem2 : (d.id, d.health)
        ∈ devs.foldl (fun m dv2 => insertGo m dv2.uuid Health.healthy) [] := by
      rw [hdp] at hmem
      exact hmem
    exact fold_hospital_all_healthy devs [] (by intro q hq; simp at hq)
      (d.id, d.health) hmem2
  · rw [ListAndWatch_eq]
    by_cases hs : sendOk 0 = true
    · rw [if_pos hs]
      rfl
    · rw [if_neg hs]
      rfl
  · obtain ⟨h1, _, _⟩ := watchLoop_invariants events dp sendOk 1 hknown
    rw [ListAndWatch_eq]
    by_cases hs : sendOk 0 = true
    · rw [if_pos hs]
      intro m hm
      rcases List.mem_cons.mp hm with h | h
      · exact ⟨dp.hospital, rfl, h⟩
      · exact h1 m h
    · rw [if_neg hs]
      intro m hm
      have h : m = listK8sDevices dp := by simpa using hm
      exact ⟨dp.hospital, rfl, h⟩

theorem watch_stream_full_snapshots_witness :
    (∀ d, d ∈ listK8sDevices dpEx → d.health = Health.healthy)
    ∧ (ListAndWatch dpEx [WatchEvent.unhealthy "GPU-bbbb", WatchEvent.done]
          (fun _ => true)).1.head? = some (listK8sDevices dpEx)
    ∧ ∀ m, m ∈ (ListAndWatch dpEx [WatchEvent.unhealthy "GPU-bbbb", WatchEvent.done]
          (fun _ => true)).1 →
        ∃ h, keysOf h = keysOf dpEx.hospital ∧ m = snapshotOf h :=
  watch_stream_full_snapshots (Except.ok ()) (Except.ok "/usr/local/etc/singularity")
    (Except.ok ()) (Except.ok "460.00") (Except.ok [devA, devB]) (Except.ok ())
    dpEx rfl dpEx [WatchEvent.unhealthy "GPU-bbbb", WatchEvent.done] (fun _ => true)
    (by intro i hi; simp at hi; subst hi; decide)

/-- Claim C6 counterexample: when a send on the watch stream fails, the
handler returns a status whose gRPC code is Unknown, not Internal. -/
theorem send_failure_code_unknown :
    (ListAndWatch dpEx [] (fun _ => false)).2.1
        = WatchOutcome.sendError GrpcCode.unknown
    ∧ GrpcCode.unknown ≠ GrpcCode.internal :=
  ⟨rfl, by decide⟩

/-- Claim C6 (amended): the streaming handler has exactly two exit
paths — observing the closed shutdown signal returns success, and a
failed send returns an error status whose gRPC code is Unknown rather
than Internal; a run that exhausts its modelled events without either
is still blocked in the loop, not exited. -/
theorem watch_exit_paths (dp : SingularityDevicePlugin)
    (events : List WatchEvent) (sendOk : Nat → Bool) :
    ((ListAndWatch dp events sendOk).2.1 = WatchOutcome.blocked
      ∨ (ListAndWatch dp events sendOk).2.1 = WatchOutcome.success
      ∨ (ListAndWatch dp events sendOk).2.1
          = WatchOutcome.sendError GrpcCode.unknown)
    ∧ ((ListAndWatch dp events sendOk).2.1 = WatchOutcome.success →
        WatchEvent.done ∈ events) := by
  rw [ListAndWatch_eq]
  by_cases hs : sendOk 0 = true
  · rw [if_pos hs]
    exact watchLoop_outcome_cases events dp sendOk 1
  · rw [if_neg hs]
    exact ⟨Or.inr (Or.inr rfl), by intro h; simp at h⟩

theorem watch_exit_paths_witness :
    ((ListAndWatch dpEx [WatchEvent.done] (fun _ => true)).2.1
        = WatchOutcome.blocked
      ∨ (ListAndWatch dpEx [WatchEvent.done] (fun _ => true)).2.1
          = WatchOutcome.success
      ∨ (ListAndWatch dpEx [WatchEvent.done] (fun _ => true)).2.1
          = WatchOutcome.sendError GrpcCode.unknown)
    ∧ ((ListAndWatch dpEx [WatchEvent.done] (fun _ => true)).2.1
          = WatchOutcome.success →
        WatchEvent.done ∈ [WatchEvent.done]) :=
  watch_exit_paths dpEx [WatchEvent.done] (fun _ => true)

/-- Claim C7: starting from an all-healthy registry with no duplicate
keys and running the watch loop over a sequence of notifications whose
ids are all known keys (every send succeeding), the resulting snapshot
marks a device Unhealthy exactly when its id was notified, and a
duplicate notification for an already-unhealthy id leaves the health
map unchanged. -/
theorem notifications_unhealthy_set
    (dp : SingularityDevicePlugin) (ns : List String)
    (hnd : (keysOf dp.hospital).Nodup)
    (hall : ∀ p, p ∈ dp.hospital → p.2 = Health.healthy)
    (hknown : ∀ i, i ∈ ns → i ∈ keysOf dp.hospital) :
    (∀ d, d ∈ listK8sDevices
        (ListAndWatch dp (ns.map WatchEvent.unhealthy) (fun _ => true)).2.2 →
        (d.health = Health.unhealthy ↔ d.id ∈ ns))
    ∧ ∀ i, i ∈ ns →
        insertGo (ListAndWatch dp (ns.map WatchEvent.unhealthy)
            (fun _ => true)).2.2.hospital i Health.unhealthy
          = (ListAndWatch dp (ns.map WatchEvent.unhealthy)
            (fun _ => true)).2.2.hospital := by
  have hfin : (ListAndWatch dp (ns.map WatchEvent.unhealthy) (fun _ => true)).2.2
      = { dp with hospital := applyAll dp.hospital ns } := by
    rw [ListAndWatch_eq, if_pos rfl]
    exact watchLoop_allOk_final ns dp 1
  have hka : keysOf (applyAll dp.hospital ns) = keysOf dp.hospital :=
    keysOf_applyAll ns dp.hospital hknown
  have hnd2 : (keysOf (applyAll dp.hospital ns)).Nodup := by
    rw [hka]
    exact hnd
  constructor
  · intro d hd
    rw [hfin] at hd
    have hmem : (d.id, d.health) ∈ applyAll dp.hospital ns :=
      (mem_snapshotOf (applyAll dp.hospital ns) d).mp hd
    have hlk : lookupA (applyAll dp.hospital ns) d.id = some d.health :=
      lookupA_of_mem_nodup (applyAll dp.hospital ns) d.id d.health hnd2 hmem
    by_cases hin : d.id ∈ ns
    · have : lookupA (applyAll dp.hospital ns) d.id = some Health.unhealthy :=
        lookupA_applyAll_mem ns dp.hospital d.id hin
      rw [this] at hlk
      exact ⟨fun _ => hin, fun _ => (Option.some_inj.mp hlk).symm⟩
    · have hl0 : lookupA dp.hospital d.id = some d.health := by
        rw [← lookupA_applyAll_not_mem ns dp.hospital d.id hin]
        exact hlk
      have hh : d.health = Health.healthy :=
        hall (d.id, d.health) (mem_of_lookupA dp.hospital d.id d.health hl0)
      constructor
      · intro hu
        rw [hh] at hu
        exact absurd hu (by decide)
      · intro hu
        exact absurd hu hin
  · intro i hi
    rw [hfin]
    exact insertGo_lookup_eq (applyAll dp.hospital ns) i Health.unhealthy
      (lookupA_applyAll_mem ns dp.hospital i hi)

theorem notifications_unhealthy_set_witness :
    (∀ d, d ∈ listK8sDevices
        (ListAndWatch dpEx (["GPU-bbbb", "GPU-bbbb"].map WatchEvent.unhealthy)
          (fun _ => true)).2.2 →
        (d.health = Health.unhealthy ↔ d.id ∈ ["GPU-bbbb", "GPU-bbbb"]))
    ∧ ∀ i, i ∈ ["GPU-bbbb", "GPU-bbbb"] →
        insertGo (ListAndWatch dpEx (["GPU-bbbb", "GPU-bbbb"].map WatchEvent.unhealthy)
            (fun _ => true)).2.2.hospital i Health.unhealthy
          = (ListAndWatch dpEx (["GPU-bbbb", "GPU-bbbb"].map WatchEvent.unhealthy)
            (fun _ => true)).2.2.hospital :=
  notifications_unhealthy_set dpEx ["GPU-bbbb", "GPU-bbbb"] (by decide)
    (by decide) (by decide)

/-- Claim C10: when the send of an updated snapshot fails, the
mark-unhealthy write that preceded it is not rolled back — the watch
run ends with the send error, the notified device is Unhealthy in the
final health map, and any watch stream opened on that state reports it
Unhealthy in its first full-snapshot message. -/
theorem send_failure_not_rolled_back
    (dp : SingularityDevicePlugin) (i : String)
    (hik : i ∈ keysOf dp.hospital) :
    (ListAndWatch dp [WatchEvent.unhealthy i] (fun n => n == 0)).2.1
        = WatchOutcome.sendError GrpcCode.unknown
    ∧ (ListAndWatch dp [WatchEvent.unhealthy i] (fun n => n == 0)).2.2
        = markUnhealthy dp i
    ∧ lookupA (markUnhealthy dp i).hospital i = some Health.unhealthy
    ∧ (∀ events2 sendOk2,
        (ListAndWatch (markUnhealthy dp i) events2 sendOk2).1.head?
          = some (listK8sDevices (markUnhealthy dp i)))
    ∧ ({ id := i, health := Health.unhealthy } : K8sDevice)
        ∈ listK8sDevices (markUnhealthy dp i) := by
  have hrun : ListAndWatch dp [WatchEvent.unhealthy i] (fun n => n == 0)
      = ([listK8sDevices dp, listK8sDevices (markUnhealthy dp i)],
          WatchOutcome.sendError GrpcCode.unknown, markUnhealthy dp i) := by
    rw [ListAndWatch_eq, if_pos (by decide : ((0 == 0) = true)),
      watchLoop_unhealthy_eq, if_neg (by decide)]
  refine ⟨by rw [hrun], by rw [hrun], lookupA_insertGo_self dp.hospital i Health.unhealthy,
    ?_, ?_⟩
  · intro events2 sendOk2
    rw [ListAndWatch_eq]
    by_cases hs : sendOk2 0 = true
    · rw [if_pos hs]
      rfl
    · rw [if_neg hs]
      rfl
  · refine (mem_snapshotOf (markUnhealthy dp i).hospital
      { id := i, health := Health.unhealthy }).mpr ?_
    exact mem_of_lookupA (markUnhealthy dp i).hospital i Health.unhealthy
      (lookupA_insertGo_self dp.hospital i Health.unhealthy)

theorem send_failure_not_rolled_back_witness :
    (ListAndWatch dpEx [WatchEvent.unhealthy "GPU-aaaa"] (fun n => n == 0)).2.1
        = WatchOutcome.sendError GrpcCode.unknown
    ∧ (ListAndWatch dpEx [WatchEvent.unhealthy "GPU-aaaa"] (fun n => n == 0)).2.2
        = markUnhealthy dpEx "GPU-aaaa"
    ∧ lookupA (markUnhealthy dpEx "GPU-aaaa").hospital "GPU-aaaa"
        = some Health.unhealthy
    ∧ (∀ events2 sendOk2,
        (ListAndWatch (markUnhealthy dpEx "GPU-aaaa") events2 sendOk2).1.head?
          = some (listK8sDevices (markUnhealthy dpEx "GPU-aaaa")))
    ∧ ({ id := "GPU-aaaa", health := Health.unhealthy } : K8sDevice)
        ∈ listK8sDevices (markUnhealthy dpEx "GPU-aaaa") :=
  send_failure_not_rolled_back dpEx "GPU-aaaa" (by decide)

end SCRIDevice
